import Mathlib

/-!
Shallow embedding of `src/distributions.py`: a library of parametric
probability distributions (gamma, normal, exponential, uniform, log-normal,
logit-normal) and a generic posterior-normalization class.

Numeric values are modelled by `Distributions.V`, an IEEE-754-style extension
of the reals with signed infinities and a quiet NaN, because the source runs
on numpy floating point where `np.log` of a negative number yields NaN and
`np.log(0)` yields `-inf` (a RuntimeWarning, not an exception).  External
special functions (erf, log-gamma, the regularized incomplete gamma function)
and the quadrature routine are abstract parameters, mirroring the design's
"external collaborator" boundary.  Fallible Python behaviour (assertions,
TypeErrors from malformed signatures, NameErrors from unbound names) is
modelled with `Except PyErr`.
-/

namespace Distributions

/-- Extended numeric value: a finite real, `+inf`, `-inf`, or NaN,
mirroring numpy double semantics at the granularity the source exercises. -/
inductive V where
  | fin : ℝ → V
  | pinf : V
  | ninf : V
  | nan : V

/-- IEEE negation. -/
def V.neg : V → V
  | .fin r => .fin (-r)
  | .pinf => .ninf
  | .ninf => .pinf
  | .nan => .nan

/-- IEEE addition: NaN is absorbing and `inf + (-inf) = NaN`. -/
def V.add : V → V → V
  | .nan, _ => .nan
  | .fin a, .fin b => .fin (a + b)
  | .fin _, .pinf => .pinf
  | .fin _, .ninf => .ninf
  | .fin _, .nan => .nan
  | .pinf, .fin _ => .pinf
  | .pinf, .pinf => .pinf
  | .pinf, .ninf => .nan
  | .pinf, .nan => .nan
  | .ninf, .fin _ => .ninf
  | .ninf, .pinf => .nan
  | .ninf, .ninf => .ninf
  | .ninf, .nan => .nan

/-- IEEE subtraction, as addition of the negation. -/
def V.sub (a b : V) : V := V.add a (V.neg b)

/-- IEEE multiplication: NaN absorbing, `0 * inf = NaN`, signed infinities. -/
noncomputable def V.mul : V → V → V
  | .nan, _ => .nan
  | .fin a, .fin b => .fin (a * b)
  | .fin a, .pinf => if 0 < a then .pinf else if a < 0 then .ninf else .nan
  | .fin a, .ninf => if 0 < a then .ninf else if a < 0 then .pinf else .nan
  | .fin _, .nan => .nan
  | .pinf, .fin b => if 0 < b then .pinf else if b < 0 then .ninf else .nan
  | .pinf, .pinf => .pinf
  | .pinf, .ninf => .ninf
  | .pinf, .nan => .nan
  | .ninf, .fin b => if 0 < b then .ninf else if b < 0 then .pinf else .nan
  | .ninf, .pinf => .ninf
  | .ninf, .ninf => .pinf
  | .ninf, .nan => .nan

/-- IEEE division: NaN absorbing, `inf / inf = NaN`, finite over (positive)
zero gives a signed infinity (numpy emits a warning, not an exception),
finite over infinity gives zero. -/
noncomputable def V.div : V → V → V
  | .nan, _ => .nan
  | .fin a, .fin b =>
      if b = 0 then (if 0 < a then .pinf else if a < 0 then .ninf else .nan)
      else .fin (a / b)
  | .fin _, .pinf => .fin 0
  | .fin _, .ninf => .fin 0
  | .fin _, .nan => .nan
  | .pinf, .fin b => if 0 ≤ b then .pinf else .ninf
  | .pinf, .pinf => .nan
  | .pinf, .ninf => .nan
  | .pinf, .nan => .nan
  | .ninf, .fin b => if 0 ≤ b then .ninf else .pinf
  | .ninf, .pinf => .nan
  | .ninf, .ninf => .nan
  | .ninf, .nan => .nan

noncomputable instance : Neg V := ⟨V.neg⟩
noncomputable instance : Add V := ⟨V.add⟩
noncomputable instance : Sub V := ⟨V.sub⟩
noncomputable instance : Mul V := ⟨V.mul⟩
noncomputable instance : Div V := ⟨V.div⟩

/-- Squaring, the source's `** 2`. -/
noncomputable def V.pow2 (a : V) : V := a * a

/-- `np.log` on extended values: NaN for negative arguments (numpy returns
NaN with a warning), `-inf` at zero, the real logarithm on positives. -/
noncomputable def npLog : V → V
  | .nan => .nan
  | .pinf => .pinf
  | .ninf => .nan
  | .fin r => if r < 0 then .nan else if r = 0 then .ninf else .fin (Real.log r)

/-- The Python runtime errors the source can raise (or that the spec's error
taxonomy names): `assert False` raises AssertionError; calling a callable
with the wrong number of positional arguments, or dividing a function object
by a float, raises TypeError; an unbound name raises NameError; a missing
attribute raises AttributeError.  `notImplementedError` and
`normalizationError` are the signals the design document's error taxonomy
prescribes for unsupported operations and for degenerate normalization. -/
inductive PyErr where
  | typeError
  | nameError
  | attributeError
  | assertionError
  | notImplementedError
  | normalizationError
deriving DecidableEq

/-- Python values the `generic_posterior` code manipulates: `None`, a float,
a function object, or an object with an attribute dictionary. -/
inductive PyVal where
  | pyNone : PyVal
  | num : ℝ → PyVal
  | func : (ℝ → ℝ) → PyVal
  | obj : List (String × PyVal) → PyVal

/-- Looking up a name in a local environment; an unbound name is a NameError. -/
def lookupName (env : List (String × PyVal)) (n : String) : Except PyErr PyVal :=
  match env.find? (fun p => p.1 == n) with
  | some p => .ok p.2
  | none => .error .nameError

/-- Reading an attribute of an object; a missing attribute (or a non-object
receiver) is an AttributeError. -/
def getattr : PyVal → String → Except PyErr PyVal
  | .obj attrs, n =>
      match attrs.find? (fun p => p.1 == n) with
      | some p => .ok p.2
      | none => .error .attributeError
  | _, _ => .error .attributeError

/-- Binding positional arguments to a parameter list, Python's calling
convention: an arity mismatch is a TypeError. -/
def bindArgs (params : List String) (args : List PyVal) :
    Except PyErr (List (String × PyVal)) :=
  if args.length = params.length then .ok (params.zip args) else .error .typeError

/-- Python true division, as used in `generic_posterior.pdf`: only
number-by-number division is defined; dividing a function object by a float
is a TypeError. -/
noncomputable def pyDiv : PyVal → PyVal → Except PyErr PyVal
  | .num a, .num b => .ok (.num (a / b))
  | _, _ => .error .typeError

/-- The state a completed `generic_posterior.__init__` would store:
the cached normalization and the proportional-posterior function. -/
structure PosteriorState where
  normalization : ℝ
  proportional_posterior : ℝ → ℝ

namespace generic_posterior

/-- Source line 24: `def __init__(proportional_posterior):` — the parameter
list of `__init__` names only `proportional_posterior`; there is no `self`
parameter. -/
def initParams : List String := ["proportional_posterior"]

/-- Source lines 34-38, the body of `__init__`, run in the local environment
produced by argument binding.  The first statement evaluates
`quad(self.proportional_posterior, -np.inf, np.inf)`: it reads the name
`self` (unbound, since the only parameter is `proportional_posterior`), then
the attribute `proportional_posterior` (not yet assigned; the assignment is
line 38, after the quad call), then would store the first component of the
quad result as the normalization, with no check on its value. -/
def initBody (quad : (ℝ → ℝ) → ℝ × ℝ) (env : List (String × PyVal)) :
    Except PyErr PosteriorState :=
  match lookupName env "self" with
  | .error e => .error e
  | .ok selfv =>
      match getattr selfv "proportional_posterior" with
      | .error e => .error e
      | .ok (.func g) =>
          let q := quad g
          match lookupName env "proportional_posterior" with
          | .error e => .error e
          | .ok (.func f) => .ok { normalization := q.1, proportional_posterior := f }
          | .ok _ => .error .typeError
      | .ok _ => .error .typeError

/-- Constructing `generic_posterior(f)`: Python creates a fresh instance with
an empty attribute dictionary and calls `__init__` with the two positional
arguments `(instance, f)`, bound against `initParams`. -/
def construct (quad : (ℝ → ℝ) → ℝ × ℝ) (f : ℝ → ℝ) :
    Except PyErr PosteriorState :=
  match bindArgs initParams [PyVal.obj [], PyVal.func f] with
  | .error e => .error e
  | .ok env => initBody quad env

/-- Source lines 40-41: `pdf` returns
`self.proportional_posterior / self.normalization` — the stored attribute
values divided by each other; the argument `x` does not occur in the body. -/
noncomputable def pdf (self_pp : PyVal) (self_norm : ℝ) (x : ℝ) :
    Except PyErr PyVal :=
  pyDiv self_pp (.num self_norm)

end generic_posterior

namespace gamma

/-- Source lines 56-61: `gamma.logpdf` guards on `beta > 0` and otherwise
hits `assert False, "Beta is zero"`.  The log-gamma special function is an
external collaborator, passed as the abstract `gammaln`. -/
noncomputable def logpdf (gammaln : ℝ → ℝ) (x alpha beta : ℝ) :
    Except PyErr V :=
  if beta > 0 then
    .ok (V.fin alpha * npLog (V.fin beta) - V.fin (gammaln alpha) +
      V.fin (alpha - 1) * npLog (V.fin x) - V.fin beta * V.fin x)
  else .error .assertionError

/-- Source lines 64-65: `gamma.cdf` returns
`special.gammainc(alpha, x * beta)` unconditionally; `gammainc` (the
regularized lower incomplete gamma function) is an external collaborator. -/
def cdf (gammainc : ℝ → ℝ → ℝ) (x alpha beta : ℝ) : Except PyErr ℝ :=
  .ok (gammainc alpha (x * beta))

end gamma

namespace exponential

/-- Source lines 93-97: `exponential.logpdf` guards on `beta > 0` and
otherwise hits `assert False, "Beta is zero"`. -/
noncomputable def logpdf (x beta : ℝ) : Except PyErr V :=
  if beta > 0 then .ok (npLog (V.fin beta) - V.fin beta * V.fin x)
  else .error .assertionError

end exponential

namespace uniform

/-- Source lines 106-108, scalar input:
`np.all([a <= x, x <= b], axis=0) / (b - a)` — the boolean indicator of
`a <= x <= b` (True is 1, False is 0) divided by the width. -/
noncomputable def pdf (x : ℝ) (a b : ℝ) : ℝ :=
  (if a ≤ x ∧ x ≤ b then (1 : ℝ) else 0) / (b - a)

/-- Source lines 106-108, vector input: `np.all` with `axis=0` forms the
elementwise conjunction of the two comparison masks, and the division by
`(b - a)` broadcasts over the resulting 0/1 array. -/
noncomputable def pdfVec (x : List ℝ) (a b : ℝ) : List ℝ :=
  (x.map (fun xi => if a ≤ xi ∧ xi ≤ b then (1 : ℝ) else 0)).map
    (fun ind => ind / (b - a))

end uniform

namespace lognormal

/-- Source lines 142-156, the scalar branch of `lognormal.logpdf`
(taken when `x` is not an ndarray): for `sigma > 0`, `x` above the `1e-6`
clipping threshold uses the exact log-density formula, `x` at or below it
uses the normal-CDF tail value at the threshold via the error function
(the abstract external `erf`); for `sigma <= 0`, a point mass at `x == mu`:
log-density `0` there and `-inf` elsewhere. -/
noncomputable def logpdfScalar (erf : ℝ → ℝ) (x mu sigma : ℝ) : V :=
  if sigma > 0 then
    if x > 1e-6 then
      -(npLog (V.fin x)) - V.fin 0.5 * npLog (V.fin (2 * Real.pi)) -
        npLog (V.fin sigma) -
        V.fin 0.5 * V.pow2 (npLog (V.fin x) - V.fin mu) / V.pow2 (V.fin sigma)
    else
      npLog (V.fin (0.5 + 0.5 * erf ((Real.log 1e-6 - mu) / (Real.sqrt 2 * sigma))))
  else
    if x = mu then V.fin 0 else V.ninf

/-- Source lines 129-141, the vector branch of `lognormal.logpdf` (taken
when `x` is an ndarray): for `sigma > 0`, compute the small-`x` fallback
value once, broadcast it over the shape of `x` (`small * np.ones(x.shape)`),
then overwrite the entries at indices `I = find(x > 1e-6)` with the exact
formula; for `sigma <= 0`, broadcast `-inf` and overwrite the entries where
`x == mu` with `0`. -/
noncomputable def logpdfVec (erf : ℝ → ℝ) (x : List ℝ) (mu sigma : ℝ) :
    List V :=
  if sigma > 0 then
    let small :=
      npLog (V.fin (0.5 + 0.5 * erf ((Real.log 1e-6 - mu) / (Real.sqrt 2 * sigma))))
    let lp := x.map (fun _ => small)
    List.zipWith
      (fun xi lpi =>
        if xi > 1e-6 then
          -(npLog (V.fin xi)) - V.fin 0.5 * npLog (V.fin (2 * Real.pi)) -
            npLog (V.fin sigma) -
            V.fin 0.5 * V.pow2 (npLog (V.fin xi) - V.fin mu) / V.pow2 (V.fin sigma)
        else lpi)
      x lp
  else
    let lp := x.map (fun _ => V.ninf)
    List.zipWith (fun xi lpi => if xi = mu then V.fin 0 else lpi) x lp

end lognormal

namespace logitnormal

/-- Source lines 170-173: `logitnormal.logpdf` computes
`-log(x) - log(1-x) - 0.5*log(2*pi*sigma**2) - 0.5*((log(x)-log(1-x)-mu)/sigma)**2`
with no domain guard; outside `(0, 1)` the `np.log` calls yield NaN or
`-inf` and the expression evaluates under IEEE arithmetic. -/
noncomputable def logpdf (x mu sigma : ℝ) : V :=
  -(npLog (V.fin x)) - npLog (V.fin (1 - x)) -
    V.fin 0.5 * npLog (V.fin (2 * Real.pi * sigma ^ 2)) -
    V.fin 0.5 * V.pow2 ((npLog (V.fin x) - npLog (V.fin (1 - x)) - V.fin mu) / V.fin sigma)

/-- Source lines 176-177: the body of `logitnormal.rvs` is `pass`, so the
call returns `None`; no exception of any kind is raised. -/
def rvs (mu sigma : ℝ) : Except PyErr PyVal := .ok .pyNone

end logitnormal

/-! Arithmetic lemmas for `V`, used to evaluate the embedded formulas. -/

@[simp] theorem nan_add (y : V) : V.nan + y = V.nan := rfl

@[simp] theorem add_nan (y : V) : y + V.nan = V.nan := by cases y <;> rfl

@[simp] theorem neg_nan : -V.nan = V.nan := rfl

@[simp] theorem neg_pinf : -V.pinf = V.ninf := rfl

@[simp] theorem neg_ninf : -V.ninf = V.pinf := rfl

@[simp] theorem neg_fin (a : ℝ) : -(V.fin a) = V.fin (-a) := rfl

@[simp] theorem nan_sub (y : V) : V.nan - y = V.nan := rfl

@[simp] theorem sub_nan (y : V) : y - V.nan = V.nan := by cases y <;> rfl

@[simp] theorem nan_mul (y : V) : V.nan * y = V.nan := rfl

@[simp] theorem mul_nan (y : V) : y * V.nan = V.nan := by cases y <;> rfl

@[simp] theorem nan_div (y : V) : V.nan / y = V.nan := rfl

@[simp] theorem div_nan (y : V) : y / V.nan = V.nan := by cases y <;> rfl

@[simp] theorem fin_add_fin (a b : ℝ) : V.fin a + V.fin b = V.fin (a + b) := rfl

@[simp] theorem fin_sub_fin (a b : ℝ) : V.fin a - V.fin b = V.fin (a - b) := by
  show V.fin (a + -b) = V.fin (a - b)
  rw [sub_eq_add_neg]

@[simp] theorem fin_mul_fin (a b : ℝ) : V.fin a * V.fin b = V.fin (a * b) := rfl

@[simp] theorem pinf_sub_fin (b : ℝ) : V.pinf - V.fin b = V.pinf := rfl

@[simp] theorem ninf_sub_fin (b : ℝ) : V.ninf - V.fin b = V.ninf := rfl

@[simp] theorem fin_sub_pinf (a : ℝ) : V.fin a - V.pinf = V.ninf := rfl

@[simp] theorem fin_sub_ninf (a : ℝ) : V.fin a - V.ninf = V.pinf := rfl

@[simp] theorem pinf_sub_ninf : V.pinf - V.ninf = V.pinf := rfl

@[simp] theorem ninf_sub_pinf : V.ninf - V.pinf = V.ninf := rfl

@[simp] theorem pinf_sub_pinf : V.pinf - V.pinf = V.nan := rfl

@[simp] theorem ninf_sub_ninf : V.ninf - V.ninf = V.nan := rfl

theorem fin_mul_pinf (a : ℝ) (h : 0 < a) : V.fin a * V.pinf = V.pinf := by
  show V.mul (V.fin a) V.pinf = V.pinf
  simp [V.mul, h]

theorem fin_mul_ninf (a : ℝ) (h : 0 < a) : V.fin a * V.ninf = V.ninf := by
  show V.mul (V.fin a) V.ninf = V.ninf
  simp [V.mul, h]

@[simp] theorem pow2_nan : V.pow2 V.nan = V.nan := rfl

@[simp] theorem pow2_pinf : V.pow2 V.pinf = V.pinf := rfl

@[simp] theorem pow2_ninf : V.pow2 V.ninf = V.pinf := rfl

@[simp] theorem pow2_fin (a : ℝ) : V.pow2 (V.fin a) = V.fin (a * a) := rfl

theorem pinf_div_fin (b : ℝ) (h : 0 ≤ b) : V.pinf / V.fin b = V.pinf := by
  show V.div V.pinf (V.fin b) = V.pinf
  simp [V.div, h]

theorem pinf_div_fin_neg (b : ℝ) (h : b < 0) : V.pinf / V.fin b = V.ninf := by
  show V.div V.pinf (V.fin b) = V.ninf
  simp [V.div, not_le.mpr h]

theorem ninf_div_fin (b : ℝ) (h : 0 ≤ b) : V.ninf / V.fin b = V.ninf := by
  show V.div V.ninf (V.fin b) = V.ninf
  simp [V.div, h]

theorem ninf_div_fin_neg (b : ℝ) (h : b < 0) : V.ninf / V.fin b = V.pinf := by
  show V.div V.ninf (V.fin b) = V.pinf
  simp [V.div, not_le.mpr h]

@[simp] theorem npLog_nan : npLog V.nan = V.nan := rfl

@[simp] theorem npLog_ninf : npLog V.ninf = V.nan := rfl

@[simp] theorem npLog_pinf : npLog V.pinf = V.pinf := rfl

theorem npLog_fin_neg (r : ℝ) (h : r < 0) : npLog (V.fin r) = V.nan := by
  simp [npLog, h]

theorem npLog_fin_zero : npLog (V.fin 0) = V.ninf := by
  simp [npLog]

theorem npLog_fin_pos (r : ℝ) (h : 0 < r) : npLog (V.fin r) = V.fin (Real.log r) := by
  simp [npLog, not_lt.mpr h.le, h.ne.symm]

/-- Zipping a list with its own map is a map: the shape of the source's
"broadcast a default, then overwrite masked entries" vector idiom. -/
theorem zipWith_map_self {α β γ : Type} (g : α → β → γ) (f : α → β) :
    ∀ xs : List α, List.zipWith g xs (xs.map f) = xs.map (fun x => g x (f x))
  | [] => rfl
  | x :: xs => by
      simp only [List.map_cons, List.zipWith_cons_cons, zipWith_map_self g f xs]

/-- Subtracting the `0.5 * log(2*pi*sigma^2)` term from `+inf` leaves `+inf`
for every real `sigma` (the term is `-inf` when `sigma = 0` and finite
otherwise, never `+inf` or NaN). -/
theorem pinf_sub_half_log_term (sigma : ℝ) :
    V.pinf - V.fin 0.5 * npLog (V.fin (2 * Real.pi * sigma ^ 2)) = V.pinf := by
  rcases eq_or_ne sigma 0 with h | h
  · subst h
    rw [show (2 * Real.pi * (0:ℝ) ^ 2) = 0 by ring, npLog_fin_zero,
      fin_mul_ninf 0.5 (by norm_num), pinf_sub_ninf]
  · have h2 : (0:ℝ) < sigma ^ 2 :=
      (sq_nonneg sigma).lt_of_ne (Ne.symm (pow_ne_zero 2 h))
    have hp : (0:ℝ) < 2 * Real.pi * sigma ^ 2 :=
      mul_pos (by positivity) h2
    rw [npLog_fin_pos _ hp, fin_mul_fin, pinf_sub_fin]

/-- Squaring `-inf / sigma` gives `+inf` for every real `sigma`, including
`sigma = 0` (IEEE division of an infinity by positive zero keeps it infinite). -/
theorem pow2_ninf_div (sigma : ℝ) : V.pow2 (V.ninf / V.fin sigma) = V.pinf := by
  rcases lt_or_le sigma 0 with h | h
  · rw [ninf_div_fin_neg sigma h, pow2_pinf]
  · rw [ninf_div_fin sigma h, pow2_ninf]

/-- Squaring `+inf / sigma` gives `+inf` for every real `sigma`. -/
theorem pow2_pinf_div (sigma : ℝ) : V.pow2 (V.pinf / V.fin sigma) = V.pinf := by
  rcases lt_or_le sigma 0 with h | h
  · rw [pinf_div_fin_neg sigma h, pow2_ninf]
  · rw [pinf_div_fin sigma h, pow2_pinf]

/-! Claim theorems. -/

/-- C1: the claim says `generic_posterior.pdf(x)` returns
`proportional_density(x) / normalization`, depending on `x` through an
evaluation of the proportional density at `x`.  The code (line 41) instead
divides the function object itself by the normalization without ever calling
it: the call raises a TypeError, and its outcome is independent of `x`. -/
theorem c1_generic_posterior_pdf_never_evaluates_density
    (f : ℝ → ℝ) (norm x : ℝ) :
    generic_posterior.pdf (PyVal.func f) norm x = Except.error PyErr.typeError ∧
    ∀ y : ℝ, generic_posterior.pdf (PyVal.func f) norm x =
      generic_posterior.pdf (PyVal.func f) norm y :=
  ⟨rfl, fun _ => rfl⟩

/-- C2: constructing a `generic_posterior` always fails before any
normalization is cached: `__init__` declares only the
`proportional_posterior` parameter, so the implicit instance argument makes
the call an arity TypeError; and even running the body with the single
parameter bound hits the unbound name `self` (a NameError) before anything
is stored. -/
theorem c2_generic_posterior_construction_always_fails
    (quad : (ℝ → ℝ) → ℝ × ℝ) (f : ℝ → ℝ) :
    generic_posterior.construct quad f = Except.error PyErr.typeError ∧
    generic_posterior.initBody quad [("proportional_posterior", PyVal.func f)] =
      Except.error PyErr.nameError ∧
    ∀ s : PosteriorState, generic_posterior.construct quad f ≠ Except.ok s :=
  ⟨rfl, rfl, fun _ h => by simp [generic_posterior.construct, bindArgs,
    generic_posterior.initParams] at h⟩

/-- C3: the claim says a non-integrable proportional density makes
construction fail with a normalization error.  The constant function 1 is
not Lebesgue-integrable over the reals, yet construction fails with the
arity TypeError of the malformed `__init__` — the same outcome as for every
other supplied function, so the failure carries no normalization
information; no posterior object is ever produced. -/
theorem c3_no_normalization_error_on_nonintegrable_input
    (quad : (ℝ → ℝ) → ℝ × ℝ) :
    generic_posterior.construct quad (fun _ => (1:ℝ)) =
      Except.error PyErr.typeError ∧
    generic_posterior.construct quad (fun _ => (1:ℝ)) ≠
      Except.error PyErr.normalizationError ∧
    ¬ MeasureTheory.Integrable (fun _ : ℝ => (1:ℝ)) MeasureTheory.volume ∧
    ∀ g : ℝ → ℝ, generic_posterior.construct quad (fun _ => (1:ℝ)) =
      generic_posterior.construct quad g := by
  refine ⟨rfl, by simp [generic_posterior.construct, bindArgs,
    generic_posterior.initParams], ?_, fun g => rfl⟩
  intro hInt
  rw [MeasureTheory.integrable_const_iff] at hInt
  rcases hInt with h | h
  · exact one_ne_zero h
  · rw [Real.volume_univ] at h
    exact lt_irrefl _ h

/-- C5: the claim says `logitnormal.rvs` fails explicitly with a
"not implemented" signal.  The body of `rvs` (line 177) is `pass`: the call
returns `None` and raises nothing. -/
theorem c5_logitnormal_rvs_returns_none (mu sigma : ℝ) :
    logitnormal.rvs mu sigma = Except.ok PyVal.pyNone ∧
    ∀ e : PyErr, logitnormal.rvs mu sigma ≠ Except.error e :=
  ⟨rfl, fun _ h => by simp [logitnormal.rvs] at h⟩

/-- C9: with `beta = 0`, both `gamma.logpdf` and `exponential.logpdf` take
the `assert False` branch and fail rather than returning a log-density. -/
theorem c9_gamma_exponential_logpdf_assert_beta_zero
    (gammaln : ℝ → ℝ) (x alpha : ℝ) :
    gamma.logpdf gammaln x alpha 0 = Except.error PyErr.assertionError ∧
    exponential.logpdf x 0 = Except.error PyErr.assertionError := by
  constructor
  · simp [gamma.logpdf]
  · simp [exponential.logpdf]

/-- C10: `gamma.cdf` performs no positivity check on `beta`: it returns the
regularized lower incomplete gamma function at `(alpha, x * beta)` for every
`beta`, while `gamma.logpdf` fails its assertion whenever `beta ≤ 0`. -/
theorem c10_gamma_cdf_no_beta_check
    (gammainc : ℝ → ℝ → ℝ) (gammaln : ℝ → ℝ) (x alpha beta : ℝ)
    (h : beta ≤ 0) :
    (∀ b : ℝ, gamma.cdf gammainc x alpha b = Except.ok (gammainc alpha (x * b))) ∧
    gamma.logpdf gammaln x alpha beta = Except.error PyErr.assertionError := by
  refine ⟨fun b => rfl, ?_⟩
  simp [gamma.logpdf, not_lt.mpr h]

/-- Witness for C10 at `gammainc = (+)`, `x = 1`, `alpha = 2`, `beta = 0`. -/
theorem c10_gamma_cdf_no_beta_check_witness :
    gamma.cdf (fun a y => a + y) 1 2 0 =
      Except.ok ((fun a y => a + y) 2 (1 * 0)) :=
  (c10_gamma_cdf_no_beta_check (fun a y => a + y) (fun a => a) 1 2 0
    (le_refl 0)).1 0

/-- C8: for bounds `a < b`, `uniform.pdf` is the indicator of
`a ≤ x ≤ b` divided by the width — `1 / (b - a)` inside the interval and `0`
outside — the vector path is the same computation elementwise, and on
`[-1, 0.5, 2]` with the unit interval it returns exactly `[0, 1, 0]`. -/
theorem c8_uniform_pdf_indicator_over_width (a b x : ℝ) (hab : a < b) :
    (∀ xs : List ℝ, uniform.pdfVec xs a b =
      xs.map (fun xi => uniform.pdf xi a b)) ∧
    (a ≤ x ∧ x ≤ b → uniform.pdf x a b = 1 / (b - a)) ∧
    (¬ (a ≤ x ∧ x ≤ b) → uniform.pdf x a b = 0) ∧
    uniform.pdfVec [-1, 0.5, 2] 0 1 = [0, 1, 0] := by
  refine ⟨?_, ?_, ?_, ?_⟩
  · intro xs
    rw [uniform.pdfVec, List.map_map]
    rfl
  · intro h
    simp [uniform.pdf, h]
  · intro h
    simp [uniform.pdf, h]
  · simp [uniform.pdfVec]
    norm_num

/-- Witness for C8 at `a = 0`, `b = 1`, `x = 0.5`. -/
theorem c8_uniform_pdf_indicator_over_width_witness :
    uniform.pdf 0.5 0 1 = 1 / (1 - 0) :=
  (c8_uniform_pdf_indicator_over_width 0 1 0.5 (by norm_num)).2.1 (by norm_num)

/-- C6: for `sigma > 0`, the vector code path of `lognormal.logpdf`
(broadcast the small-`x` fallback, overwrite entries above the `1e-6`
threshold with the precise formula) returns at each position exactly the
value of the scalar code path on that entry. -/
theorem c6_lognormal_vector_path_matches_scalar_path
    (erf : ℝ → ℝ) (mu sigma : ℝ) (h : sigma > 0) (xs : List ℝ) :
    lognormal.logpdfVec erf xs mu sigma =
      xs.map (fun xi => lognormal.logpdfScalar erf xi mu sigma) := by
  simp only [lognormal.logpdfVec, lognormal.logpdfScalar, if_pos h]
  rw [zipWith_map_self]

/-- Witness for C6 at `erf = id`, `mu = 0`, `sigma = 1`, `xs = [1]`. -/
theorem c6_lognormal_vector_path_matches_scalar_path_witness :
    lognormal.logpdfVec (fun t => t) [1] 0 1 =
      [1].map (fun xi => lognormal.logpdfScalar (fun t => t) xi 0 1) :=
  c6_lognormal_vector_path_matches_scalar_path (fun t => t) 0 1 (by norm_num) [1]

/-- C7: with `sigma = 0`, `lognormal.logpdf` compares `x` against `mu` on
the untransformed scale: the scalar path returns log-density `0` when
`x = mu` and `-inf` otherwise, and the vector path broadcasts `-inf` and
overwrites the entries equal to `mu` with `0`. -/
theorem c7_lognormal_sigma_zero_point_mass_at_mu
    (erf : ℝ → ℝ) (x mu sigma : ℝ) (xs : List ℝ) (h : sigma = 0) :
    (x = mu → lognormal.logpdfScalar erf x mu sigma = V.fin 0) ∧
    (x ≠ mu → lognormal.logpdfScalar erf x mu sigma = V.ninf) ∧
    lognormal.logpdfVec erf xs mu sigma =
      xs.map (fun xi => if xi = mu then V.fin 0 else V.ninf) := by
  subst h
  refine ⟨?_, ?_, ?_⟩
  · intro hx
    simp [lognormal.logpdfScalar, hx]
  · intro hx
    simp [lognormal.logpdfScalar, hx]
  · simp only [lognormal.logpdfVec, lt_self_iff_false, gt_iff_lt, if_false]
    rw [zipWith_map_self]

/-- Witness for C7 at `erf = id`, `x = mu = 1`, `sigma = 0`. -/
theorem c7_lognormal_sigma_zero_point_mass_at_mu_witness :
    lognormal.logpdfScalar (fun t => t) 1 1 0 = V.fin 0 :=
  (c7_lognormal_sigma_zero_point_mass_at_mu (fun t => t) 1 1 0 [] rfl).1 rfl

/-- C4: the claim says `logitnormal.logpdf` fails with a domain error for
`x` outside the open unit interval.  The code has no domain guard: for every
`x ≤ 0` or `x ≥ 1` and every `mu`, `sigma`, the IEEE evaluation of the
formula returns NaN silently (log of a negative number is NaN, and the
boundary points produce an `inf - inf`). -/
theorem c4_logitnormal_logpdf_nan_outside_unit_domain
    (x mu sigma : ℝ) (h : x ≤ 0 ∨ 1 ≤ x) :
    logitnormal.logpdf x mu sigma = V.nan := by
  have h05 : (0:ℝ) < 0.5 := by norm_num
  rcases h with h | h
  · rcases lt_or_eq_of_le h with hlt | heq
    · -- x < 0: np.log(x) is NaN and NaN propagates through the expression
      simp only [logitnormal.logpdf, npLog_fin_neg x hlt, neg_nan, nan_sub]
    · -- x = 0: the expression is inf - inf, hence NaN
      subst heq
      simp only [logitnormal.logpdf, sub_zero, npLog_fin_zero,
        npLog_fin_pos 1 one_pos, neg_ninf, pinf_sub_fin, ninf_sub_fin,
        pow2_ninf_div, fin_mul_pinf 0.5 h05, pinf_sub_half_log_term,
        pinf_sub_pinf]
  · rcases lt_or_eq_of_le h with hlt | heq
    · -- x > 1: np.log(1 - x) is NaN and NaN propagates
      have h1x : 1 - x < 0 := by linarith
      simp only [logitnormal.logpdf, npLog_fin_neg (1 - x) h1x, sub_nan,
        nan_sub]
    · -- x = 1: the expression is inf - inf, hence NaN
      subst heq
      simp only [logitnormal.logpdf, sub_self, npLog_fin_zero,
        npLog_fin_pos 1 one_pos, neg_fin, fin_sub_ninf, pinf_sub_fin,
        pow2_pinf_div, fin_mul_pinf 0.5 h05, pinf_sub_half_log_term,
        pinf_sub_pinf]

/-- Witness for C4 at `x = 2`, `mu = 0`, `sigma = 1`. -/
theorem c4_logitnormal_logpdf_nan_outside_unit_domain_witness :
    logitnormal.logpdf 2 0 1 = V.nan :=
  c4_logitnormal_logpdf_nan_outside_unit_domain 2 0 1 (Or.inr (by norm_num))

end Distributions
